import Mathlib

set_option maxHeartbeats 1000000

namespace UapQuic

/-! Verification of the uap-quic tunneling data plane.

The definitions below are shallow embeddings of the Go sources:
the domain-suffix router (pkg/router), the client TCP proxy path and
connection supervisor (pkg/core/client.go), and the server-side stream
gate, anti-probe responder and SOCKS5 UDP datagram codec
(cmd/client/main.go).  Strings on the wire are modelled as lists of
bytes (List Nat, each entry a byte value) and host names as lists of
characters. -/

/-! ## Suffix router (pkg/router) -/

/-- ASCII whitespace as trimmed by strings.TrimSpace
(space, tab, newline, vertical tab, form feed, carriage return). -/
def isSpaceC (c : Char) : Bool :=
  c = ' ' || c = '\t' || c = '\n' || c = '\x0b' || c = '\x0c' || c = '\r'

/-- Whitespace trimming on character lists, modelling strings.TrimSpace. -/
def goTrim (l : List Char) : List Char :=
  ((l.dropWhile isSpaceC).reverse.dropWhile isSpaceC).reverse

/-- Strip one trailing dot, modelling strings.TrimSuffix(domain, "."). -/
def trimDot (l : List Char) : List Char :=
  if l.getLast? = some '.' then l.dropLast else l

/-- Lowercasing, modelling strings.ToLower (ASCII letters). -/
def goToLower (l : List Char) : List Char := l.map Char.toLower

/-- The label splitter inside router.splitDomain: the Go index loop
collects exactly the maximal nonempty runs of characters between dots.
The accumulator holds the current run in reverse order. -/
def splitLabels (acc : List Char) : List Char → List (List Char)
  | [] => if acc = [] then [] else [acc.reverse]
  | c :: cs =>
    if c = '.' then
      if acc = [] then splitLabels [] cs else acc.reverse :: splitLabels [] cs
    else splitLabels (c :: acc) cs

/-- The normalization router.splitDomain applies before splitting:
trim whitespace, lowercase, strip one trailing dot. -/
def normD (s : List Char) : List Char := trimDot (goToLower (goTrim s))

/-- router.splitDomain: normalize, then split into dot-separated labels. -/
def splitDomain (s : List Char) : List (List Char) :=
  if goToLower (goTrim s) = [] then []
  else splitLabels [] (trimDot (goToLower (goTrim s)))

/-- router.TrieNode: children as an association list from label to child
(modelling the Go map), plus the terminal flag isEnd. -/
inductive TrieNode : Type
  | mk : List (List Char × TrieNode) → Bool → TrieNode

/-- The children map of a node. -/
def TrieNode.children : TrieNode → List (List Char × TrieNode)
  | .mk ch _ => ch

/-- The terminal flag of a node. -/
def TrieNode.isEnd : TrieNode → Bool
  | .mk _ e => e

/-- A fresh node, as built by router.NewRouter and on insertion. -/
def TrieNode.empty : TrieNode := .mk [] false

/-- Lookup current.children[part] in the Go map. -/
def findChild : List (List Char × TrieNode) → List Char → Option TrieNode
  | [], _ => none
  | (k, v) :: rest, key => if k = key then some v else findChild rest key

/-- Write current.children[part] = node into the Go map. -/
def setChild : List (List Char × TrieNode) → List Char → TrieNode →
    List (List Char × TrieNode)
  | [], key, node => [(key, node)]
  | (k, v) :: rest, key, node =>
    if k = key then (key, node) :: rest else (k, v) :: setChild rest key node

/-- The insertion loop of Router.AddRule over the reversed label list
(the loop skips empty labels; splitDomain never produces one). -/
def TrieNode.insertRev : TrieNode → List (List Char) → TrieNode
  | t, [] => .mk t.children true
  | t, p :: ps =>
    if p = [] then t.insertRev ps
    else
      let c := (findChild t.children p).getD TrieNode.empty
      .mk (setChild t.children p (c.insertRev ps)) t.isEnd

/-- Router.AddRule. -/
def addRule (rt : TrieNode) (domain : List Char) : TrieNode :=
  let d := goTrim domain
  if d = [] then rt
  else
    let parts := splitDomain d
    if parts = [] then rt else rt.insertRev parts.reverse

/-- The query loop of Router.ShouldProxy over the reversed label list:
return true as soon as the current node is terminal, descend by the
current label otherwise, and report the final flag at the end. -/
def TrieNode.walkRev : TrieNode → List (List Char) → Bool
  | t, [] => t.isEnd
  | t, p :: ps =>
    if p = [] then t.walkRev ps
    else if t.isEnd then true
    else
      match findChild t.children p with
      | none => false
      | some c => c.walkRev ps

/-- Router.ShouldProxy. -/
def shouldProxy (rt : TrieNode) (domain : List Char) : Bool :=
  let d := goTrim domain
  if d = [] then false
  else
    let parts := splitDomain d
    if parts = [] then false else rt.walkRev parts.reverse

/-- A router loaded from a list of rules, one AddRule per line
(Router.LoadRules after comment and blank-line filtering). -/
def buildRouter (rules : List (List Char)) : TrieNode :=
  rules.foldl addRule TrieNode.empty

example : shouldProxy (buildRouter ["google.com".data]) "www.google.com".data = true := by
  decide

example : shouldProxy (buildRouter ["evilgoogle.com".data]) "google.com".data = false := by
  decide

example : shouldProxy (buildRouter ["a..b".data]) "a.b".data = true := by
  decide

example : shouldProxy (buildRouter ["Google.COM ".data]) " www.google.com.".data = true := by
  decide

example : shouldProxy TrieNode.empty "google.com".data = false := by
  decide

/-! ## Router lemmas -/

theorem dropWhile_dropWhile {α : Type} (p : α → Bool) (l : List α) :
    (l.dropWhile p).dropWhile p = l.dropWhile p := by
  induction l with
  | nil => rfl
  | cons a l ih =>
    by_cases h : p a = true
    · simp [List.dropWhile_cons, h, ih]
    · simp [List.dropWhile_cons, h]

theorem dropWhile_head?_false {α : Type} (p : α → Bool) :
    ∀ (l : List α) (a : α), (l.dropWhile p).head? = some a → p a = false
  | [], a, h => by simp at h
  | b :: l, a, h => by
    by_cases hb : p b = true
    · rw [List.dropWhile_cons, if_pos hb] at h
      exact dropWhile_head?_false p l a h
    · rw [List.dropWhile_cons, if_neg hb] at h
      simp only [List.head?_cons, Option.some.injEq] at h
      subst h
      exact Bool.not_eq_true _ ▸ hb

theorem dropWhile_eq_self {α : Type} (p : α → Bool) (l : List α)
    (h : ∀ a, l.head? = some a → p a = false) : l.dropWhile p = l := by
  cases l with
  | nil => rfl
  | cons a l =>
    rw [List.dropWhile_cons, if_neg]
    simp [h a rfl]

theorem head?_of_isPre {α : Type} {l₁ l₂ : List α} (h : l₁ <+: l₂) (hne : l₁ ≠ []) :
    l₁.head? = l₂.head? := by
  obtain ⟨t, rfl⟩ := h
  cases l₁ with
  | nil => exact absurd rfl hne
  | cons a l => rfl

theorem goTrim_idem (l : List Char) : goTrim (goTrim l) = goTrim l := by
  unfold goTrim
  have hpre : ((l.dropWhile isSpaceC).reverse.dropWhile isSpaceC).reverse <+:
      l.dropWhile isSpaceC := by
    have h1 : (l.dropWhile isSpaceC).reverse.dropWhile isSpaceC <:+
        (l.dropWhile isSpaceC).reverse := List.dropWhile_suffix _
    have h2 := List.reverse_prefix.mpr h1
    simpa using h2
  have hstep : ((l.dropWhile isSpaceC).reverse.dropWhile isSpaceC).reverse.dropWhile
      isSpaceC = ((l.dropWhile isSpaceC).reverse.dropWhile isSpaceC).reverse := by
    apply dropWhile_eq_self
    intro a ha
    have hne : ((l.dropWhile isSpaceC).reverse.dropWhile isSpaceC).reverse ≠ [] := by
      intro h0
      rw [h0] at ha
      simp at ha
    have hh : (l.dropWhile isSpaceC).head? = some a := by
      rw [← head?_of_isPre hpre hne]
      exact ha
    exact dropWhile_head?_false _ _ _ hh
  rw [hstep, List.reverse_reverse, dropWhile_dropWhile]

theorem splitDomain_goTrim (s : List Char) :
    splitDomain (goTrim s) = splitDomain s := by
  unfold splitDomain
  rw [goTrim_idem]

theorem splitDomain_of_goTrim_nil {s : List Char} (h : goTrim s = []) :
    splitDomain s = [] := by
  unfold splitDomain
  rw [h]
  rfl

theorem addRule_eq (rt : TrieNode) (domain : List Char) :
    addRule rt domain =
      if splitDomain domain = [] then rt
      else rt.insertRev (splitDomain domain).reverse := by
  unfold addRule
  by_cases h1 : goTrim domain = []
  · rw [if_pos h1, if_pos (splitDomain_of_goTrim_nil h1)]
  · rw [if_neg h1]
    rw [splitDomain_goTrim]

theorem shouldProxy_eq (rt : TrieNode) (domain : List Char) :
    shouldProxy rt domain =
      if splitDomain domain = [] then false
      else rt.walkRev (splitDomain domain).reverse := by
  unfold shouldProxy
  by_cases h1 : goTrim domain = []
  · rw [if_pos h1, if_pos (splitDomain_of_goTrim_nil h1)]
  · rw [if_neg h1]
    rw [splitDomain_goTrim]

/-- The terminal flag at the end of an exact path of labels (no early
return, no skipping); auxiliary to characterize the rule set a trie holds. -/
def TrieNode.terminalAt : TrieNode → List (List Char) → Bool
  | t, [] => t.isEnd
  | t, p :: ps =>
    match findChild t.children p with
    | none => false
    | some c => c.terminalAt ps

theorem findChild_setChild (ch : List (List Char × TrieNode)) (k : List Char)
    (v : TrieNode) (k' : List Char) :
    findChild (setChild ch k v) k' = if k' = k then some v else findChild ch k' := by
  induction ch with
  | nil =>
    by_cases h : k' = k
    · subst h
      simp [setChild, findChild]
    · have h2 : ¬ k = k' := fun hh => h hh.symm
      simp [setChild, findChild, h, h2]
  | cons e rest ih =>
    obtain ⟨ke, ve⟩ := e
    by_cases he : ke = k
    · subst he
      by_cases h : k' = ke
      · subst h
        simp [setChild, findChild]
      · have h2 : ¬ ke = k' := fun hh => h hh.symm
        simp [setChild, findChild, h, h2]
    · by_cases h2 : ke = k'
      · have hkk2 : ¬ k' = k := fun hh => he (h2.symm ▸ hh)
        simp [setChild, findChild, he, h2, hkk2]
      · simp [setChild, findChild, he, h2, ih]

theorem terminalAt_nil (t : TrieNode) : t.terminalAt [] = t.isEnd := rfl

theorem terminalAt_cons_none {t : TrieNode} {p : List Char} {ps : List (List Char)}
    (h : findChild t.children p = none) : t.terminalAt (p :: ps) = false := by
  rw [show t.terminalAt (p :: ps) =
      (match findChild t.children p with
       | none => false
       | some c => c.terminalAt ps) from rfl,
    h]

theorem terminalAt_cons_some {t : TrieNode} {p : List Char} {ps : List (List Char)}
    {c : TrieNode} (h : findChild t.children p = some c) :
    t.terminalAt (p :: ps) = c.terminalAt ps := by
  rw [show t.terminalAt (p :: ps) =
      (match findChild t.children p with
       | none => false
       | some c => c.terminalAt ps) from rfl,
    h]

theorem terminalAt_empty (qs : List (List Char)) :
    TrieNode.empty.terminalAt qs = false := by
  cases qs with
  | nil => rfl
  | cons q qs => rfl

theorem terminalAt_insertRev (ps : List (List Char)) :
    ∀ (t : TrieNode) (qs : List (List Char)), [] ∉ ps →
      (t.insertRev ps).terminalAt qs = (t.terminalAt qs || decide (ps = qs)) := by
  induction ps with
  | nil =>
    intro t qs _
    show (TrieNode.mk t.children true).terminalAt qs =
      (t.terminalAt qs || decide (([] : List (List Char)) = qs))
    cases qs with
    | nil => simp [terminalAt_nil, TrieNode.isEnd]
    | cons q qs =>
      have hne : ¬ (([] : List (List Char)) = q :: qs) := by simp
      cases hc : findChild t.children q with
      | none =>
        rw [terminalAt_cons_none (t := TrieNode.mk t.children true)
            (by simpa [TrieNode.children] using hc),
          terminalAt_cons_none hc]
        simp [hne]
      | some c =>
        rw [terminalAt_cons_some (t := TrieNode.mk t.children true)
            (by simpa [TrieNode.children] using hc),
          terminalAt_cons_some hc]
        simp [hne]
  | cons p ps ih =>
    intro t qs hmem
    have hp : p ≠ [] := by
      intro h0
      exact hmem (h0 ▸ List.mem_cons_self _ _)
    have hps : [] ∉ ps := fun h0 => hmem (List.mem_cons_of_mem _ h0)
    cases t with
    | mk ch e =>
      have hins : (TrieNode.mk ch e).insertRev (p :: ps) =
          TrieNode.mk (setChild ch p
            (((findChild ch p).getD TrieNode.empty).insertRev ps)) e := by
        rw [show (TrieNode.mk ch e).insertRev (p :: ps) =
            (if p = [] then (TrieNode.mk ch e).insertRev ps
             else TrieNode.mk (setChild ch p
               (((findChild ch p).getD TrieNode.empty).insertRev ps)) e) from rfl,
          if_neg hp]
      rw [hins]
      cases qs with
      | nil =>
        rw [terminalAt_nil, terminalAt_nil]
        simp [TrieNode.isEnd]
      | cons q qs =>
        by_cases hq : q = p
        · subst hq
          have hfind : findChild (setChild ch q
              (((findChild ch q).getD TrieNode.empty).insertRev ps)) q =
              some (((findChild ch q).getD TrieNode.empty).insertRev ps) := by
            rw [findChild_setChild, if_pos rfl]
          rw [terminalAt_cons_some (by simpa [TrieNode.children] using hfind)]
          rw [ih _ qs hps]
          have hdec : decide (q :: ps = q :: qs) = decide (ps = qs) := by simp
          rw [hdec]
          cases hc : findChild ch q with
          | none =>
            rw [terminalAt_cons_none (t := TrieNode.mk ch e)
              (by simpa [TrieNode.children] using hc)]
            simp [hc, terminalAt_empty]
          | some c =>
            rw [terminalAt_cons_some (t := TrieNode.mk ch e)
              (by simpa [TrieNode.children] using hc)]
            simp [hc]
        · have hfind : findChild (setChild ch p
              (((findChild ch p).getD TrieNode.empty).insertRev ps)) q =
              findChild ch q := by
            rw [findChild_setChild, if_neg hq]
          have hne2 : ¬ (p :: ps = q :: qs) := by
            intro hcc
            exact hq (List.cons.inj hcc).1.symm
          cases hc : findChild ch q with
          | none =>
            rw [terminalAt_cons_none (by simpa [TrieNode.children] using hfind.trans hc),
              terminalAt_cons_none (t := TrieNode.mk ch e)
                (by simpa [TrieNode.children] using hc)]
            simp [hne2]
          | some c =>
            rw [terminalAt_cons_some (by simpa [TrieNode.children] using hfind.trans hc),
              terminalAt_cons_some (t := TrieNode.mk ch e)
                (by simpa [TrieNode.children] using hc)]
            simp [hne2]

theorem walkRev_nil (t : TrieNode) : t.walkRev [] = t.isEnd := rfl

theorem walkRev_cons_seen {t : TrieNode} {p : List Char} {ps : List (List Char)}
    (hp : p ≠ []) (he : t.isEnd = true) : t.walkRev (p :: ps) = true := by
  rw [show t.walkRev (p :: ps) =
      (if p = [] then t.walkRev ps
       else if t.isEnd = true then true
       else match findChild t.children p with
         | none => false
         | some c => c.walkRev ps) from rfl,
    if_neg hp, if_pos he]

theorem walkRev_cons_none {t : TrieNode} {p : List Char} {ps : List (List Char)}
    (hp : p ≠ []) (he : t.isEnd = false) (hc : findChild t.children p = none) :
    t.walkRev (p :: ps) = false := by
  rw [show t.walkRev (p :: ps) =
      (if p = [] then t.walkRev ps
       else if t.isEnd = true then true
       else match findChild t.children p with
         | none => false
         | some c => c.walkRev ps) from rfl,
    if_neg hp, he, hc]
  simp

theorem walkRev_cons_desc {t : TrieNode} {p : List Char} {ps : List (List Char)}
    {c : TrieNode} (hp : p ≠ []) (he : t.isEnd = false)
    (hc : findChild t.children p = some c) :
    t.walkRev (p :: ps) = c.walkRev ps := by
  rw [show t.walkRev (p :: ps) =
      (if p = [] then t.walkRev ps
       else if t.isEnd = true then true
       else match findChild t.children p with
         | none => false
         | some c => c.walkRev ps) from rfl,
    if_neg hp, he, hc]
  simp

theorem walkRev_iff (ls : List (List Char)) :
    ∀ t : TrieNode, [] ∉ ls →
      (t.walkRev ls = true ↔ ∃ ps, ps <+: ls ∧ t.terminalAt ps = true) := by
  induction ls with
  | nil =>
    intro t _
    rw [walkRev_nil]
    constructor
    · intro h
      exact ⟨[], ⟨[], rfl⟩, h⟩
    · rintro ⟨ps, ⟨tt, htt⟩, hterm⟩
      cases ps with
      | nil => exact hterm
      | cons a ps => exact absurd htt (by simp)
  | cons l ls ih =>
    intro t hmem
    have hl : l ≠ [] := fun h0 => hmem (h0 ▸ List.mem_cons_self _ _)
    have hls : [] ∉ ls := fun h0 => hmem (List.mem_cons_of_mem _ h0)
    cases he : t.isEnd with
    | true =>
      rw [walkRev_cons_seen hl he]
      constructor
      · intro _
        exact ⟨[], ⟨l :: ls, rfl⟩, by rw [terminalAt_nil]; exact he⟩
      · intro _
        rfl
    | false =>
      cases hc : findChild t.children l with
      | none =>
        rw [walkRev_cons_none hl he hc]
        constructor
        · intro h
          simp at h
        · rintro ⟨ps, ⟨tt, htt⟩, hterm⟩
          cases ps with
          | nil =>
            rw [terminalAt_nil, he] at hterm
            simp at hterm
          | cons a ps =>
            have ha : a = l := (List.cons.inj htt).1
            subst ha
            rw [terminalAt_cons_none hc] at hterm
            simp at hterm
      | some c =>
        rw [walkRev_cons_desc hl he hc, ih c hls]
        constructor
        · rintro ⟨ps, ⟨tt, htt⟩, hterm⟩
          refine ⟨l :: ps, ⟨tt, ?_⟩, ?_⟩
          · rw [List.cons_append, htt]
          · rw [terminalAt_cons_some hc]
            exact hterm
        · rintro ⟨ps, ⟨tt, htt⟩, hterm⟩
          cases ps with
          | nil =>
            rw [terminalAt_nil, he] at hterm
            simp at hterm
          | cons a ps =>
            have ha : a = l := (List.cons.inj htt).1
            subst ha
            have hpre2 : ps <+: ls := ⟨tt, (List.cons.inj htt).2⟩
            rw [terminalAt_cons_some hc] at hterm
            exact ⟨ps, hpre2, hterm⟩

theorem splitLabels_ne_nil (l : List Char) :
    ∀ (acc : List Char) (x : List Char), x ∈ splitLabels acc l → x ≠ [] := by
  induction l with
  | nil =>
    intro acc x hx
    by_cases h : acc = []
    · simp [splitLabels, h] at hx
    · simp only [splitLabels, if_neg h, List.mem_singleton] at hx
      subst hx
      intro h0
      exact h (by simpa using h0)
  | cons c cs ih =>
    intro acc x hx
    rw [show splitLabels acc (c :: cs) =
        (if c = '.' then
          (if acc = [] then splitLabels [] cs else acc.reverse :: splitLabels [] cs)
         else splitLabels (c :: acc) cs) from rfl] at hx
    by_cases hc : c = '.'
    · rw [if_pos hc] at hx
      by_cases h : acc = []
      · rw [if_pos h] at hx
        exact ih [] x hx
      · rw [if_neg h] at hx
        rcases List.mem_cons.mp hx with h1 | h1
        · subst h1
          intro h0
          exact h (by simpa using h0)
        · exact ih [] x h1
    · rw [if_neg hc] at hx
      exact ih (c :: acc) x hx

theorem splitDomain_mem_ne_nil {s : List Char} {x : List Char}
    (hx : x ∈ splitDomain s) : x ≠ [] := by
  unfold splitDomain at hx
  by_cases h : goToLower (goTrim s) = []
  · rw [if_pos h] at hx
    simp at hx
  · rw [if_neg h] at hx
    exact splitLabels_ne_nil _ _ _ hx

theorem terminalAt_foldl (rules : List (List Char)) :
    ∀ (t : TrieNode) (qs : List (List Char)),
      ((rules.foldl addRule t).terminalAt qs = true ↔
        t.terminalAt qs = true ∨
          ∃ r ∈ rules, splitDomain r ≠ [] ∧ (splitDomain r).reverse = qs) := by
  induction rules with
  | nil =>
    intro t qs
    simp
  | cons r rules ih =>
    intro t qs
    rw [List.foldl_cons, ih, addRule_eq]
    by_cases hr : splitDomain r = []
    · rw [if_pos hr]
      constructor
      · rintro (h | ⟨r2, hr2, h2⟩)
        · exact Or.inl h
        · exact Or.inr ⟨r2, List.mem_cons_of_mem _ hr2, h2⟩
      · rintro (h | ⟨r2, hr2, h2⟩)
        · exact Or.inl h
        · rcases List.mem_cons.mp hr2 with rfl | hm
          · exact absurd hr h2.1
          · exact Or.inr ⟨r2, hm, h2⟩
    · rw [if_neg hr]
      have hmem : [] ∉ (splitDomain r).reverse := fun h0 =>
        splitDomain_mem_ne_nil (List.mem_reverse.mp h0) rfl
      rw [terminalAt_insertRev _ _ _ hmem]
      simp only [Bool.or_eq_true, decide_eq_true_eq]
      constructor
      · rintro ((h | h) | ⟨r2, hr2, h2⟩)
        · exact Or.inl h
        · exact Or.inr ⟨r, List.mem_cons_self _ _, hr, h⟩
        · exact Or.inr ⟨r2, List.mem_cons_of_mem _ hr2, h2⟩
      · rintro (h | ⟨r2, hr2, hne2, hrev⟩)
        · exact Or.inl (Or.inl h)
        · rcases List.mem_cons.mp hr2 with rfl | hm
          · exact Or.inl (Or.inr hrev)
          · exact Or.inr ⟨r2, hm, hne2, hrev⟩

theorem terminalAt_buildRouter (rules : List (List Char)) (qs : List (List Char)) :
    ((buildRouter rules).terminalAt qs = true ↔
      ∃ r ∈ rules, splitDomain r ≠ [] ∧ (splitDomain r).reverse = qs) := by
  unfold buildRouter
  rw [terminalAt_foldl]
  simp [terminalAt_empty]

theorem shouldProxy_iff_labels (rules : List (List Char)) (h : List Char) :
    (shouldProxy (buildRouter rules) h = true ↔
      ∃ r ∈ rules, splitDomain r ≠ [] ∧ splitDomain r <:+ splitDomain h) := by
  rw [shouldProxy_eq]
  by_cases hh : splitDomain h = []
  · rw [if_pos hh]
    simp only [Bool.false_eq_true, false_iff]
    rintro ⟨r, hr, hne, hsuf⟩
    rw [hh] at hsuf
    exact hne (List.suffix_nil.mp hsuf)
  · rw [if_neg hh]
    have hmem : [] ∉ (splitDomain h).reverse := fun h0 =>
      splitDomain_mem_ne_nil (List.mem_reverse.mp h0) rfl
    rw [walkRev_iff _ _ hmem]
    constructor
    · rintro ⟨ps, hpre, hterm⟩
      obtain ⟨r, hr, hne, hrev⟩ := (terminalAt_buildRouter _ _).mp hterm
      refine ⟨r, hr, hne, ?_⟩
      rw [← hrev] at hpre
      exact List.reverse_prefix.mp hpre
    · rintro ⟨r, hr, hne, hsuf⟩
      exact ⟨(splitDomain r).reverse, List.reverse_prefix.mpr hsuf,
        (terminalAt_buildRouter _ _).mpr ⟨r, hr, hne, rfl⟩⟩

/-- Join labels back with dots; inverse of the splitter on inputs whose
normalized form has no empty labels. -/
def joinDots : List (List Char) → List Char
  | [] => []
  | x :: xs =>
    match xs with
    | [] => x
    | _ :: _ => x ++ '.' :: joinDots xs

theorem joinDots_append (b : List (List Char)) (hb : b ≠ []) :
    ∀ a : List (List Char), a ≠ [] →
      joinDots (a ++ b) = joinDots a ++ '.' :: joinDots b := by
  intro a
  induction a with
  | nil =>
    intro h0
    exact absurd rfl h0
  | cons x a ih =>
    intro _
    cases a with
    | nil =>
      cases b with
      | nil => exact absurd rfl hb
      | cons y b2 => rfl
    | cons z a2 =>
      rw [show (x :: z :: a2) ++ b = x :: ((z :: a2) ++ b) from rfl]
      rw [show joinDots (x :: ((z :: a2) ++ b)) =
          x ++ '.' :: joinDots ((z :: a2) ++ b) from rfl]
      rw [ih (by simp)]
      rw [show joinDots (x :: z :: a2) = x ++ '.' :: joinDots (z :: a2) from rfl]
      simp

theorem splitLabels_append (ys : List Char) :
    ∀ (xs acc : List Char),
      splitLabels acc (xs ++ '.' :: ys) = splitLabels acc xs ++ splitLabels [] ys := by
  intro xs
  induction xs with
  | nil =>
    intro acc
    by_cases h : acc = []
    · simp [splitLabels, h]
    · simp [splitLabels, h]
  | cons c cs ih =>
    intro acc
    rw [List.cons_append]
    rw [show splitLabels acc (c :: (cs ++ '.' :: ys)) =
        (if c = '.' then
          (if acc = [] then splitLabels [] (cs ++ '.' :: ys)
           else acc.reverse :: splitLabels [] (cs ++ '.' :: ys))
         else splitLabels (c :: acc) (cs ++ '.' :: ys)) from rfl]
    rw [show splitLabels acc (c :: cs) =
        (if c = '.' then
          (if acc = [] then splitLabels [] cs else acc.reverse :: splitLabels [] cs)
         else splitLabels (c :: acc) cs) from rfl]
    by_cases hc : c = '.'
    · rw [if_pos hc, if_pos hc]
      by_cases h : acc = []
      · rw [if_pos h, if_pos h, ih]
      · rw [if_neg h, if_neg h, ih]
        simp
    · rw [if_neg hc, if_neg hc, ih]

theorem splitDomain_eq_splitLabels (s : List Char) :
    splitDomain s = splitLabels [] (normD s) := by
  unfold splitDomain normD
  by_cases h : goToLower (goTrim s) = []
  · rw [if_pos h, h]
    rfl
  · rw [if_neg h]

theorem labels_suffix_iff_strings (h r : List Char)
    (hch : joinDots (splitDomain h) = normD h)
    (hcr : joinDots (splitDomain r) = normD r)
    (hrne : normD r ≠ []) :
    ((splitDomain r ≠ [] ∧ splitDomain r <:+ splitDomain h) ↔
      (normD h = normD r ∨ ('.' :: normD r) <:+ normD h)) := by
  have hsdr : splitDomain r ≠ [] := by
    intro h0
    apply hrne
    rw [← hcr, h0]
    rfl
  constructor
  · rintro ⟨-, a, ha⟩
    by_cases haa : a = []
    · subst haa
      left
      rw [← hch, ← ha, List.nil_append]
      exact hcr
    · right
      refine ⟨joinDots a, ?_⟩
      rw [← hch, ← ha, joinDots_append (splitDomain r) hsdr a haa, hcr]
  · rintro (heq | ⟨x, hx⟩)
    · refine ⟨hsdr, ?_⟩
      have hsd : splitDomain h = splitDomain r := by
        rw [splitDomain_eq_splitLabels h, splitDomain_eq_splitLabels r, heq]
      rw [hsd]
    · refine ⟨hsdr, ?_⟩
      have hsd : splitDomain h = splitLabels [] x ++ splitDomain r := by
        rw [splitDomain_eq_splitLabels h, ← hx, splitLabels_append,
          ← splitDomain_eq_splitLabels r]
      exact ⟨splitLabels [] x, hsd.symm⟩

theorem walkRev_empty (ls : List (List Char)) : TrieNode.empty.walkRev ls = false := by
  induction ls with
  | nil => rfl
  | cons p ps ih =>
    by_cases hp : p = []
    · subst hp
      rw [show TrieNode.empty.walkRev ([] :: ps) = TrieNode.empty.walkRev ps from rfl]
      exact ih
    · exact walkRev_cons_none hp rfl rfl

/-- C1 (amended): for a host and rules whose normalized forms (lowercase,
whitespace-trimmed, one trailing dot stripped) are nonempty and contain no
empty labels (the normalized string is the dot-join of its labels),
ShouldProxy over the loaded rules is true exactly when some rule r
satisfies: the normalized host equals the normalized rule, or ends with
"." followed by it.  Moreover loading evilgoogle.com does not make
google.com proxied, and the empty tree matches no host. -/
theorem C1_router_suffix_semantics (rules : List (List Char)) (h : List Char)
    (hh : joinDots (splitDomain h) = normD h)
    (hr : ∀ r ∈ rules, joinDots (splitDomain r) = normD r ∧ normD r ≠ []) :
    ((shouldProxy (buildRouter rules) h = true ↔
        ∃ r ∈ rules, normD h = normD r ∨ ('.' :: normD r) <:+ normD h) ∧
      shouldProxy (buildRouter ["evilgoogle.com".data]) "google.com".data = false ∧
      ∀ host : List Char, shouldProxy TrieNode.empty host = false) := by
  refine ⟨?_, by decide, ?_⟩
  · rw [shouldProxy_iff_labels]
    constructor
    · rintro ⟨r, hrm, hne, hsuf⟩
      obtain ⟨hc, hnz⟩ := hr r hrm
      exact ⟨r, hrm, (labels_suffix_iff_strings h r hh hc hnz).mp ⟨hne, hsuf⟩⟩
    · rintro ⟨r, hrm, hor⟩
      obtain ⟨hc, hnz⟩ := hr r hrm
      obtain ⟨hne, hsuf⟩ := (labels_suffix_iff_strings h r hh hc hnz).mpr hor
      exact ⟨r, hrm, hne, hsuf⟩
  · intro host
    rw [shouldProxy_eq]
    by_cases h0 : splitDomain host = []
    · rw [if_pos h0]
    · rw [if_neg h0]
      exact walkRev_empty _

/-- The right-hand side of claim C1 exactly as stated, as a Boolean:
after normalization (lowercase, whitespace trimmed, one trailing dot
stripped) the host equals the rule or ends with "." ++ rule. -/
def specSuffixMatch (h r : List Char) : Bool :=
  normD h == normD r || ('.' :: normD r).isSuffixOf (normD h)

/-- C1 counterexample to the claim as stated: with the single loaded rule
"a..b", ShouldProxy("a.b") is true, yet "a.b" neither equals "a..b" nor
ends with ".a..b" after normalization, so the advertised equivalence
fails for inputs containing empty labels. -/
theorem C1_counterexample :
    shouldProxy (buildRouter ["a..b".data]) "a.b".data = true ∧
    specSuffixMatch "a.b".data "a..b".data = false := by
  decide

/-- C1 witness: the amended equivalence applied to the rule google.com and
the host www.google.com. -/
theorem C1_router_suffix_semantics_witness :
    shouldProxy (buildRouter ["google.com".data]) "www.google.com".data = true :=
  ((C1_router_suffix_semantics ["google.com".data] "www.google.com".data (by decide)
    (by decide)).1).mpr ⟨"google.com".data, by decide, Or.inr ⟨"www".data, by decide⟩⟩

/-! ## Destination framing: client proxyTCP writes, server handleStream reads -/

/-- ASCII whitespace bytes as trimmed by strings.TrimSpace on the token
line (space, tab, newline, vertical tab, form feed, carriage return). -/
def isSpaceB (b : Nat) : Bool :=
  b = 32 || b = 9 || b = 10 || b = 11 || b = 12 || b = 13

/-- Right trim of whitespace bytes. -/
def trimRightB (bs : List Nat) : List Nat :=
  (bs.reverse.dropWhile isSpaceB).reverse

/-- strings.TrimSpace on byte lists. -/
def trimBytes (bs : List Nat) : List Nat :=
  (trimRightB bs).dropWhile isSpaceB

/-- The frame Client.proxyTCP writes at the head of a proxied stream:
token bytes, a newline, the one-byte address length (the byte conversion
truncates mod 256), then the address bytes. -/
def clientFrame (token addr : List Nat) : List Nat :=
  token ++ [10] ++ [addr.length % 256] ++ addr

/-- bufio Reader.ReadString reading up to and including the first
newline; a stream without a newline is a read error (none). -/
def readLine : List Nat → Option (List Nat × List Nat)
  | [] => none
  | b :: bs =>
    if b = 10 then some ([10], bs)
    else
      match readLine bs with
      | none => none
      | some (l, r) => some (b :: l, r)

/-- The server read side (verifyToken line read plus the handleStream
destination read): trim the token line, then one length byte, rejecting
zero (or above 255), then that many address bytes. -/
def serverReadFrame (s : List Nat) : Option (List Nat × List Nat) :=
  match readLine s with
  | none => none
  | some (line, rest) =>
    match rest with
    | [] => none
    | n :: rest2 =>
      if n = 0 ∨ n > 255 then none
      else if rest2.length < n then none
      else some (trimBytes line, rest2.take n)

theorem readLine_append {token : List Nat} (htok : 10 ∉ token) (rest : List Nat) :
    readLine (token ++ 10 :: rest) = some (token ++ [10], rest) := by
  induction token with
  | nil => simp [readLine]
  | cons b bs ih =>
    have hb : b ≠ 10 := fun h0 => htok (h0 ▸ List.mem_cons_self _ _)
    have hbs : 10 ∉ bs := fun h0 => htok (List.mem_cons_of_mem _ h0)
    rw [List.cons_append,
      show readLine (b :: (bs ++ 10 :: rest)) =
        (if b = 10 then some ([10], bs ++ 10 :: rest)
         else
           match readLine (bs ++ 10 :: rest) with
           | none => none
           | some (l, r) => some (b :: l, r)) from rfl,
      if_neg hb, ih hbs]
    rfl

theorem serverReadFrame_eq {token : List Nat} (htok : 10 ∉ token) (n : Nat)
    (rest2 : List Nat) :
    serverReadFrame (token ++ 10 :: n :: rest2) =
      (if n = 0 ∨ n > 255 then none
       else if rest2.length < n then none
       else some (trimBytes (token ++ [10]), rest2.take n)) := by
  unfold serverReadFrame
  rw [readLine_append htok]

theorem trimBytes_newline (token : List Nat) :
    trimBytes (token ++ [10]) = trimBytes token := by
  unfold trimBytes trimRightB
  rw [List.reverse_append]
  simp [List.dropWhile_cons, isSpaceB]

/-- C2 (amended): the destination frame written by the client is read
back exactly by the server, for tokens that contain no newline and are
unchanged by whitespace trimming, and addresses of length 1 to 255;
trailing stream bytes are untouched. -/
theorem C2_frame_roundtrip (token addr extra : List Nat)
    (htok : 10 ∉ token) (htrim : trimBytes token = token)
    (hlen : 0 < addr.length) (hlen2 : addr.length ≤ 255) :
    serverReadFrame (clientFrame token addr ++ extra) = some (token, addr) := by
  have hshape : clientFrame token addr ++ extra =
      token ++ 10 :: (addr.length % 256 :: (addr ++ extra)) := by
    unfold clientFrame
    simp
  rw [hshape, serverReadFrame_eq htok]
  have hmod : addr.length % 256 = addr.length := Nat.mod_eq_of_lt (by omega)
  rw [hmod]
  rw [if_neg (show ¬ (addr.length = 0 ∨ addr.length > 255) by omega)]
  rw [if_neg (show ¬ ((addr ++ extra).length < addr.length) by simp)]
  rw [trimBytes_newline, htrim, List.take_left]

/-- C2 counterexample to the claim as stated over every token: the token
consisting of one space byte is trimmed away by the server read side, so
it is not recovered. -/
theorem C2_counterexample :
    serverReadFrame (clientFrame [32] [120]) = some ([], [120]) ∧
    ([] : List Nat) ≠ [32] := by
  constructor
  · rfl
  · decide

/-- C2 witness: round trip at token "a" (byte 97) and address "b"
(byte 98). -/
theorem C2_frame_roundtrip_witness :
    serverReadFrame (clientFrame [97] [98] ++ []) = some ([97], [98]) :=
  C2_frame_roundtrip [97] [98] [] (by decide) (by decide) (by decide) (by decide)

/-! ## Server token gate (verifyToken) -/

/-- Outcome of the verifyToken gate: the stream read-deadline state after
the call (in seconds from entry of the call; none means no deadline), the
protocol status bytes it wrote, whether the anti-probe responder was
invoked, and whether handleStream proceeds to the destination frame. -/
structure GateResult where
  readDeadlineAfter : Option Nat
  statusBytes : List Nat
  antiProbe : Bool
  proceed : Bool
  deriving DecidableEq

/-- verifyToken: set a 5 second read deadline, read a newline-terminated
line, trim whitespace, compare with the configured token.  On a match
write the single byte 0x00 (the read deadline set before the read is
never reset anywhere in the function); otherwise, or when the line read
fails, invoke handleInvalidToken and do not proceed. -/
def verifyToken (cfgToken : List Nat) (input : List Nat) : GateResult :=
  match readLine input with
  | none => ⟨some 5, [], true, false⟩
  | some (line, _) =>
    if trimBytes line = cfgToken then ⟨some 5, [0], false, true⟩
    else ⟨some 5, [], true, false⟩

/-- C3: on the matching token line "t\n" the gate writes 0x00 and
proceeds, but the read deadline set before the read is still in force
(some 5, not none as the claim requires); mismatching or missing lines
invoke the anti-probe responder and do not proceed. -/
theorem C3_deadline_left_set :
    (verifyToken [116] [116, 10]).proceed = true ∧
    (verifyToken [116] [116, 10]).statusBytes = [0] ∧
    (verifyToken [116] [116, 10]).readDeadlineAfter = some 5 ∧
    (verifyToken [116] [116, 10]).readDeadlineAfter ≠ none ∧
    (verifyToken [116] [99, 10]).antiProbe = true ∧
    (verifyToken [116] [99, 10]).proceed = false ∧
    (verifyToken [116] [99]).antiProbe = true ∧
    (verifyToken [116] [99]).proceed = false := by
  refine ⟨rfl, rfl, rfl, by decide, rfl, rfl, rfl, rfl⟩

/-! ## SOCKS5 UDP datagram codec (server handleDatagrams) -/

/-- Big-endian 16-bit value of two bytes (binary.BigEndian.Uint16). -/
def be16 (hi lo : Nat) : Nat := 256 * hi + lo

/-- Go slice data[lo:hi]; none models the out-of-bounds panic. -/
def sliceBytes (data : List Nat) (lo hi : Nat) : Option (List Nat) :=
  if lo ≤ hi ∧ hi ≤ data.length then some ((data.drop lo).take (hi - lo)) else none

/-- Result of parseSOCKS5UDPHeader: a target (address bytes, port) and
the payload, a parse error, or crash marking an out-of-bounds access. -/
inductive ParseResult : Type
  | ok : List Nat → Nat → List Nat → ParseResult
  | err : ParseResult
  | crash : ParseResult
  deriving DecidableEq

/-- The ATYP switch inside parseSOCKS5UDPHeader: address bytes, port and
payload offset.  The domain case goes through the supplied resolver
(net.ResolveIPAddr); resolution failure is a parse error. -/
inductive AddrResult : Type
  | ok : List Nat → Nat → Nat → AddrResult
  | err : AddrResult
  | crash : AddrResult
  deriving DecidableEq

/-- The ATYP 0x01 case: at least 10 bytes, 4 address bytes from offset 4,
big-endian port at offset 8, payload from offset 10. -/
def parseIPv4Part (data : List Nat) : AddrResult :=
  if data.length < 10 then .err
  else
    match sliceBytes data 4 8, data.get? 8, data.get? 9 with
    | some ip, some hi, some lo => .ok ip (be16 hi lo) 10
    | _, _, _ => .crash

/-- The ATYP 0x03 case after the domain length byte has been read:
reject zero or above 255, require 7 plus that many bytes, then the
domain, its resolution, the port; payload from 7 plus the length. -/
def parseDomainWithLen (resolve : List Nat → Option (List Nat))
    (data : List Nat) (dlen : Nat) : AddrResult :=
  if dlen = 0 ∨ dlen > 255 then .err
  else if data.length < 7 + dlen then .err
  else
    match sliceBytes data 5 (5 + dlen), data.get? (5 + dlen),
        data.get? (6 + dlen) with
    | some dom, some hi, some lo =>
      match resolve dom with
      | none => .err
      | some ip => .ok ip (be16 hi lo) (7 + dlen)
    | _, _, _ => .crash

/-- The ATYP 0x03 case: at least 5 bytes, then the length byte at
offset 4 drives parseDomainWithLen. -/
def parseDomainPart (resolve : List Nat → Option (List Nat))
    (data : List Nat) : AddrResult :=
  if data.length < 5 then .err
  else
    match data.get? 4 with
    | none => .crash
    | some dlen => parseDomainWithLen resolve data dlen

/-- The ATYP 0x04 case: at least 22 bytes, 16 address bytes from offset
4, big-endian port at offset 20, payload from offset 22. -/
def parseIPv6Part (data : List Nat) : AddrResult :=
  if data.length < 22 then .err
  else
    match sliceBytes data 4 20, data.get? 20, data.get? 21 with
    | some ip, some hi, some lo => .ok ip (be16 hi lo) 22
    | _, _, _ => .crash

/-- The dispatch on the ATYP byte; any other value is an error. -/
def atypSwitch (resolve : List Nat → Option (List Nat)) (data : List Nat)
    (atyp : Nat) : AddrResult :=
  if atyp = 1 then parseIPv4Part data
  else if atyp = 3 then parseDomainPart resolve data
  else if atyp = 4 then parseIPv6Part data
  else .err

/-- The switch of parseSOCKS5UDPHeader on data[3].  The FRAG byte
data[2] is skipped, never inspected. -/
def parseAddrPart (resolve : List Nat → Option (List Nat)) (data : List Nat) :
    AddrResult :=
  match data.get? 3 with
  | none => .crash
  | some atyp => atypSwitch resolve data atyp

/-- parseSOCKS5UDPHeader: minimum length 4, ATYP switch, final offset
check, payload slice from the data start. -/
def parseSOCKS5UDPHeader (resolve : List Nat → Option (List Nat))
    (data : List Nat) : ParseResult :=
  if data.length < 4 then .err
  else
    match parseAddrPart resolve data with
    | .err => .err
    | .crash => .crash
    | .ok ip port ds =>
      if ds > data.length then .err
      else .ok ip port (data.drop ds)

/-- Action of one iteration of the inbound loop of handleDatagrams. -/
inductive DatagramAction : Type
  | drop : DatagramAction
  | forward : List Nat → Nat → List Nat → DatagramAction
  deriving DecidableEq

/-- One iteration of the inbound (client to target) datagram loop of
handleDatagrams: empty datagrams are skipped, parse failures drop the
datagram without reply, successes forward the payload to the target. -/
def handleInboundDatagram (resolve : List Nat → Option (List Nat))
    (data : List Nat) : DatagramAction :=
  if data.length = 0 then .drop
  else
    match parseSOCKS5UDPHeader resolve data with
    | .ok ip port payload => .forward ip port payload
    | _ => .drop

/-- net.IP.To4: a 4-byte address itself, or the low four bytes of a
16-byte IPv4-mapped address; nil (none) otherwise. -/
def ipTo4 (ip : List Nat) : Option (List Nat) :=
  if ip.length = 4 then some ip
  else if ip.length = 16 ∧ ip.take 10 = [0, 0, 0, 0, 0, 0, 0, 0, 0, 0] ∧
      ip.get? 10 = some 255 ∧ ip.get? 11 = some 255 then
    some (ip.drop 12)
  else none

/-- net.IP.To16: a 16-byte address itself, or a 4-byte address with the
v4-in-v6 prefix; nil (none) otherwise. -/
def ipTo16 (ip : List Nat) : Option (List Nat) :=
  if ip.length = 4 then some ([0, 0, 0, 0, 0, 0, 0, 0, 0, 0, 255, 255] ++ ip)
  else if ip.length = 16 then some ip
  else none

/-- Big-endian port bytes (binary.BigEndian.PutUint16 after the uint16
conversion, which truncates). -/
def u16be (n : Nat) : List Nat := [n % 65536 / 256, n % 256]

/-- buildSOCKS5UDPHeader: two reserved bytes and the FRAG byte all zero,
then ATYP 0x01 with the 4-byte form for IPv4 sources, or ATYP 0x04 with
the 16-byte form for other addresses, then the big-endian source port,
then the payload.  A nil source collapses to 0.0.0.0:0. -/
def buildSOCKS5UDPHeader (ip : List Nat) (port : Nat) (payload : List Nat) :
    List Nat :=
  (if ip ≠ [] then
    match ipTo4 ip with
    | some ip4 => [0, 0, 0] ++ [1] ++ ip4 ++ u16be port
    | none => [0, 0, 0] ++ [4] ++ ((ipTo16 ip).getD []) ++ u16be port
  else [0, 0, 0] ++ [1, 0, 0, 0, 0, 0, 0]) ++ payload

/-- net.IP.Equal: same bytes, or a 4-byte address equal to the low bytes
of an IPv4-mapped 16-byte address. -/
def ipEqGo (x y : List Nat) : Bool :=
  if x.length = y.length then x == y
  else if x.length = 4 ∧ y.length = 16 then
    (y.take 12 == [0, 0, 0, 0, 0, 0, 0, 0, 0, 0, 255, 255]) && (y.drop 12 == x)
  else if x.length = 16 ∧ y.length = 4 then
    (x.take 12 == [0, 0, 0, 0, 0, 0, 0, 0, 0, 0, 255, 255]) && (x.drop 12 == y)
  else false

example :
    parseSOCKS5UDPHeader (fun _ => none) [0, 0, 0, 1, 8, 8, 8, 8, 0, 53, 7, 7] =
      ParseResult.ok [8, 8, 8, 8] 53 [7, 7] := by decide

example :
    parseSOCKS5UDPHeader (fun _ => some [9, 9, 9, 9])
      [0, 0, 0, 3, 1, 97, 0, 80, 42] = ParseResult.ok [9, 9, 9, 9] 80 [42] := by
  decide

example :
    buildSOCKS5UDPHeader [8, 8, 4, 4] 53 [1, 2] =
      [0, 0, 0, 1, 8, 8, 4, 4, 0, 53, 1, 2] := by decide

example :
    handleInboundDatagram (fun _ => none) [0, 0] = DatagramAction.drop := by decide

theorem get?_isSome_of_lt {l : List Nat} {i : Nat} (h : i < l.length) :
    ∃ b, l.get? i = some b := by
  cases hg : l.get? i with
  | none =>
    rw [List.get?_eq_none] at hg
    omega
  | some b => exact ⟨b, rfl⟩

theorem sliceBytes_eq_some {data : List Nat} {lo hi : Nat} (h1 : lo ≤ hi)
    (h2 : hi ≤ data.length) :
    sliceBytes data lo hi = some ((data.drop lo).take (hi - lo)) := by
  unfold sliceBytes
  rw [if_pos ⟨h1, h2⟩]

theorem parseAddrPart_atyp {resolve : List Nat → Option (List Nat)}
    {data : List Nat} {atyp : Nat} (h : data.get? 3 = some atyp) :
    parseAddrPart resolve data = atypSwitch resolve data atyp := by
  unfold parseAddrPart
  rw [h]

theorem parseDomainPart_eq {resolve : List Nat → Option (List Nat)}
    {data : List Nat} {dlen : Nat} (h5 : ¬ data.length < 5)
    (hd : data.get? 4 = some dlen) :
    parseDomainPart resolve data = parseDomainWithLen resolve data dlen := by
  unfold parseDomainPart
  rw [if_neg h5, hd]

theorem parseIPv4Part_ne_crash (data : List Nat) :
    parseIPv4Part data ≠ AddrResult.crash := by
  unfold parseIPv4Part
  by_cases h10 : data.length < 10
  · rw [if_pos h10]
    simp
  · rw [if_neg h10]
    rw [sliceBytes_eq_some (by omega) (by omega)]
    obtain ⟨b8, h8⟩ := get?_isSome_of_lt (show 8 < data.length by omega)
    obtain ⟨b9, h9⟩ := get?_isSome_of_lt (show 9 < data.length by omega)
    rw [h8, h9]
    simp

theorem parseDomainWithLen_ne_crash (resolve : List Nat → Option (List Nat))
    (data : List Nat) (dlen : Nat) :
    parseDomainWithLen resolve data dlen ≠ AddrResult.crash := by
  unfold parseDomainWithLen
  by_cases hd0 : dlen = 0 ∨ dlen > 255
  · rw [if_pos hd0]
    simp
  · rw [if_neg hd0]
    by_cases h7 : data.length < 7 + dlen
    · rw [if_pos h7]
      simp
    · rw [if_neg h7]
      rw [sliceBytes_eq_some (by omega) (by omega)]
      obtain ⟨hi1, hhi⟩ := get?_isSome_of_lt (show 5 + dlen < data.length by omega)
      obtain ⟨lo1, hlo⟩ := get?_isSome_of_lt (show 6 + dlen < data.length by omega)
      rw [hhi, hlo]
      show (match resolve ((data.drop 5).take (5 + dlen - 5)) with
        | none => AddrResult.err
        | some ip => AddrResult.ok ip (be16 hi1 lo1) (7 + dlen)) ≠ AddrResult.crash
      cases hres : resolve ((data.drop 5).take (5 + dlen - 5)) with
      | none => simp
      | some ip => simp

theorem parseDomainPart_ne_crash (resolve : List Nat → Option (List Nat))
    (data : List Nat) : parseDomainPart resolve data ≠ AddrResult.crash := by
  unfold parseDomainPart
  by_cases h5 : data.length < 5
  · rw [if_pos h5]
    simp
  · rw [if_neg h5]
    cases hg : data.get? 4 with
    | none =>
      rw [List.get?_eq_none] at hg
      omega
    | some dlen => exact parseDomainWithLen_ne_crash resolve data dlen

theorem parseIPv6Part_ne_crash (data : List Nat) :
    parseIPv6Part data ≠ AddrResult.crash := by
  unfold parseIPv6Part
  by_cases h22 : data.length < 22
  · rw [if_pos h22]
    simp
  · rw [if_neg h22]
    rw [sliceBytes_eq_some (by omega) (by omega)]
    obtain ⟨b20, h20⟩ := get?_isSome_of_lt (show 20 < data.length by omega)
    obtain ⟨b21, h21⟩ := get?_isSome_of_lt (show 21 < data.length by omega)
    rw [h20, h21]
    simp

theorem parseAddrPart_ne_crash (resolve : List Nat → Option (List Nat))
    (data : List Nat) (h4 : 4 ≤ data.length) :
    parseAddrPart resolve data ≠ AddrResult.crash := by
  obtain ⟨atyp, hatyp⟩ := get?_isSome_of_lt (show 3 < data.length by omega)
  rw [parseAddrPart_atyp hatyp]
  unfold atypSwitch
  by_cases h1 : atyp = 1
  · rw [if_pos h1]
    exact parseIPv4Part_ne_crash data
  · rw [if_neg h1]
    by_cases h3 : atyp = 3
    · rw [if_pos h3]
      exact parseDomainPart_ne_crash resolve data
    · rw [if_neg h3]
      by_cases hA4 : atyp = 4
      · rw [if_pos hA4]
        exact parseIPv6Part_ne_crash data
      · rw [if_neg hA4]
        simp

theorem parse_eq_of_ok {resolve : List Nat → Option (List Nat)}
    {data ip : List Nat} {port ds : Nat} (h4 : ¬ data.length < 4)
    (hp : parseAddrPart resolve data = AddrResult.ok ip port ds) :
    parseSOCKS5UDPHeader resolve data =
      (if ds > data.length then ParseResult.err
       else ParseResult.ok ip port (data.drop ds)) := by
  unfold parseSOCKS5UDPHeader
  rw [if_neg h4, hp]

theorem parse_eq_of_err {resolve : List Nat → Option (List Nat)}
    {data : List Nat} (h4 : ¬ data.length < 4)
    (hp : parseAddrPart resolve data = AddrResult.err) :
    parseSOCKS5UDPHeader resolve data = ParseResult.err := by
  unfold parseSOCKS5UDPHeader
  rw [if_neg h4, hp]

/-- C10: parseSOCKS5UDPHeader is total on arbitrary input: it returns a
target with the payload or an error, every branch being guarded by the
required minimum length (4 for the fixed header, 10 for ATYP 1, 5 and
7 plus the domain length for ATYP 3, 22 for ATYP 4), so no slice access
is out of bounds; any ATYP other than 1, 3, 4 yields an error. -/
theorem C10_parse_total (resolve : List Nat → Option (List Nat)) (data : List Nat) :
    parseSOCKS5UDPHeader resolve data ≠ ParseResult.crash ∧
    (∀ atyp, data.get? 3 = some atyp → ¬ (atyp = 1 ∨ atyp = 3 ∨ atyp = 4) →
      4 ≤ data.length → parseSOCKS5UDPHeader resolve data = ParseResult.err) := by
  constructor
  · by_cases h4 : data.length < 4
    · unfold parseSOCKS5UDPHeader
      rw [if_pos h4]
      simp
    · have hA := parseAddrPart_ne_crash resolve data (by omega)
      cases hp : parseAddrPart resolve data with
      | err =>
        rw [parse_eq_of_err h4 hp]
        simp
      | crash => exact absurd hp hA
      | ok ip port ds =>
        rw [parse_eq_of_ok h4 hp]
        by_cases hds : ds > data.length
        · rw [if_pos hds]
          simp
        · rw [if_neg hds]
          simp
  · intro atyp hatyp hno hlen
    have hp : parseAddrPart resolve data = AddrResult.err := by
      rw [parseAddrPart_atyp hatyp]
      unfold atypSwitch
      rw [if_neg (fun h => hno (Or.inl h)),
        if_neg (fun h => hno (Or.inr (Or.inl h))),
        if_neg (fun h => hno (Or.inr (Or.inr h)))]
    exact parse_eq_of_err (by omega) hp

/-- C10 witness: on the 4-byte datagram with unknown ATYP 9 the parser
returns an error and does not crash. -/
theorem C10_parse_total_witness :
    parseSOCKS5UDPHeader (fun _ => none) [0, 0, 0, 9] ≠ ParseResult.crash ∧
    parseSOCKS5UDPHeader (fun _ => none) [0, 0, 0, 9] = ParseResult.err :=
  ⟨(C10_parse_total (fun _ => none) [0, 0, 0, 9]).1,
   (C10_parse_total (fun _ => none) [0, 0, 0, 9]).2 9 rfl (by decide) (by decide)⟩

theorem get?_cons3 {a b c : Nat} {l : List Nat} {m : Nat} (h : 3 ≤ m) :
    (a :: b :: c :: l).get? m = l.get? (m - 3) := by
  cases m with
  | zero => omega
  | succ m1 =>
    cases m1 with
    | zero => omega
    | succ m2 =>
      cases m2 with
      | zero => omega
      | succ m3 => rfl

theorem drop_cons3 {a b c : Nat} {l : List Nat} {m : Nat} (h : 3 ≤ m) :
    (a :: b :: c :: l).drop m = l.drop (m - 3) := by
  cases m with
  | zero => omega
  | succ m1 =>
    cases m1 with
    | zero => omega
    | succ m2 =>
      cases m2 with
      | zero => omega
      | succ m3 => rfl

theorem parseIPv4Part_ok_ds {data ip : List Nat} {port ds : Nat}
    (h : parseIPv4Part data = AddrResult.ok ip port ds) : 3 ≤ ds := by
  unfold parseIPv4Part at h
  by_cases h10 : data.length < 10
  · rw [if_pos h10] at h
    exact absurd h (by simp)
  · rw [if_neg h10] at h
    rw [sliceBytes_eq_some (by omega) (by omega)] at h
    obtain ⟨b8, h8⟩ := get?_isSome_of_lt (show 8 < data.length by omega)
    obtain ⟨b9, h9⟩ := get?_isSome_of_lt (show 9 < data.length by omega)
    rw [h8, h9] at h
    replace h : AddrResult.ok ((data.drop 4).take (8 - 4)) (be16 b8 b9) 10 =
        AddrResult.ok ip port ds := h
    injection h with h1 h2 h3
    omega

theorem parseDomainWithLen_ok_ds {resolve : List Nat → Option (List Nat)}
    {data ip : List Nat} {dlen port ds : Nat}
    (h : parseDomainWithLen resolve data dlen = AddrResult.ok ip port ds) :
    3 ≤ ds := by
  unfold parseDomainWithLen at h
  by_cases hd0 : dlen = 0 ∨ dlen > 255
  · rw [if_pos hd0] at h
    exact absurd h (by simp)
  · rw [if_neg hd0] at h
    by_cases h7 : data.length < 7 + dlen
    · rw [if_pos h7] at h
      exact absurd h (by simp)
    · rw [if_neg h7] at h
      rw [sliceBytes_eq_some (by omega) (by omega)] at h
      obtain ⟨hi1, hhi⟩ := get?_isSome_of_lt (show 5 + dlen < data.length by omega)
      obtain ⟨lo1, hlo⟩ := get?_isSome_of_lt (show 6 + dlen < data.length by omega)
      rw [hhi, hlo] at h
      replace h : (match resolve ((data.drop 5).take (5 + dlen - 5)) with
        | none => AddrResult.err
        | some ip2 => AddrResult.ok ip2 (be16 hi1 lo1) (7 + dlen)) =
          AddrResult.ok ip port ds := h
      cases hres : resolve ((data.drop 5).take (5 + dlen - 5)) with
      | none =>
        rw [hres] at h
        exact absurd h (by simp)
      | some ip2 =>
        rw [hres] at h
        replace h : AddrResult.ok ip2 (be16 hi1 lo1) (7 + dlen) =
            AddrResult.ok ip port ds := h
        injection h with h1 h2 h3
        omega

theorem parseDomainPart_ok_ds {resolve : List Nat → Option (List Nat)}
    {data ip : List Nat} {port ds : Nat}
    (h : parseDomainPart resolve data = AddrResult.ok ip port ds) : 3 ≤ ds := by
  unfold parseDomainPart at h
  by_cases h5 : data.length < 5
  · rw [if_pos h5] at h
    exact absurd h (by simp)
  · rw [if_neg h5] at h
    cases hg : data.get? 4 with
    | none =>
      rw [List.get?_eq_none] at hg
      omega
    | some dlen =>
      rw [hg] at h
      exact parseDomainWithLen_ok_ds h

theorem parseIPv6Part_ok_ds {data ip : List Nat} {port ds : Nat}
    (h : parseIPv6Part data = AddrResult.ok ip port ds) : 3 ≤ ds := by
  unfold parseIPv6Part at h
  by_cases h22 : data.length < 22
  · rw [if_pos h22] at h
    exact absurd h (by simp)
  · rw [if_neg h22] at h
    rw [sliceBytes_eq_some (by omega) (by omega)] at h
    obtain ⟨b20, h20⟩ := get?_isSome_of_lt (show 20 < data.length by omega)
    obtain ⟨b21, h21⟩ := get?_isSome_of_lt (show 21 < data.length by omega)
    rw [h20, h21] at h
    replace h : AddrResult.ok ((data.drop 4).take (20 - 4)) (be16 b20 b21) 22 =
        AddrResult.ok ip port ds := h
    injection h with h1 h2 h3
    omega

theorem parseAddrPart_ok_ds {resolve : List Nat → Option (List Nat)}
    {data ip : List Nat} {port ds : Nat}
    (h : parseAddrPart resolve data = AddrResult.ok ip port ds) : 3 ≤ ds := by
  unfold parseAddrPart at h
  cases hg : data.get? 3 with
  | none =>
    rw [hg] at h
    exact absurd h (by simp)
  | some atyp =>
    rw [hg] at h
    replace h : atypSwitch resolve data atyp = AddrResult.ok ip port ds := h
    unfold atypSwitch at h
    by_cases h1 : atyp = 1
    · rw [if_pos h1] at h
      exact parseIPv4Part_ok_ds h
    · rw [if_neg h1] at h
      by_cases h3 : atyp = 3
      · rw [if_pos h3] at h
        exact parseDomainPart_ok_ds h
      · rw [if_neg h3] at h
        by_cases hA4 : atyp = 4
        · rw [if_pos hA4] at h
          exact parseIPv6Part_ok_ds h
        · rw [if_neg hA4] at h
          exact absurd h (by simp)

theorem parseDomainWithLen_frag (resolve : List Nat → Option (List Nat))
    (r0 r1 f g dlen : Nat) (rest : List Nat) :
    parseDomainWithLen resolve (r0 :: r1 :: f :: rest) dlen =
      parseDomainWithLen resolve (r0 :: r1 :: g :: rest) dlen := by
  unfold parseDomainWithLen
  simp only [List.length_cons]
  by_cases hd0 : dlen = 0 ∨ dlen > 255
  · rw [if_pos hd0, if_pos hd0]
  · rw [if_neg hd0, if_neg hd0]
    by_cases h7 : rest.length + 1 + 1 + 1 < 7 + dlen
    · rw [if_pos h7, if_pos h7]
    · rw [if_neg h7, if_neg h7]
      have hsl : sliceBytes (r0 :: r1 :: f :: rest) 5 (5 + dlen) =
          sliceBytes (r0 :: r1 :: g :: rest) 5 (5 + dlen) := rfl
      rw [show (r0 :: r1 :: f :: rest).get? (5 + dlen) =
          rest.get? (5 + dlen - 3) from get?_cons3 (by omega),
        show (r0 :: r1 :: g :: rest).get? (5 + dlen) =
          rest.get? (5 + dlen - 3) from get?_cons3 (by omega),
        show (r0 :: r1 :: f :: rest).get? (6 + dlen) =
          rest.get? (6 + dlen - 3) from get?_cons3 (by omega),
        show (r0 :: r1 :: g :: rest).get? (6 + dlen) =
          rest.get? (6 + dlen - 3) from get?_cons3 (by omega),
        hsl]

theorem parseAddrPart_frag (resolve : List Nat → Option (List Nat))
    (r0 r1 f g : Nat) (rest : List Nat) :
    parseAddrPart resolve (r0 :: r1 :: f :: rest) =
      parseAddrPart resolve (r0 :: r1 :: g :: rest) := by
  rcases hr : rest.get? 0 with - | atyp
  · unfold parseAddrPart
    rw [show (r0 :: r1 :: f :: rest).get? 3 = rest.get? 0 from rfl,
      show (r0 :: r1 :: g :: rest).get? 3 = rest.get? 0 from rfl, hr]
  · rw [parseAddrPart_atyp (show (r0 :: r1 :: f :: rest).get? 3 = some atyp from hr),
      parseAddrPart_atyp (show (r0 :: r1 :: g :: rest).get? 3 = some atyp from hr)]
    unfold atypSwitch
    by_cases h1 : atyp = 1
    · rw [if_pos h1, if_pos h1]
      rfl
    · rw [if_neg h1, if_neg h1]
      by_cases h3 : atyp = 3
      · rw [if_pos h3, if_pos h3]
        unfold parseDomainPart
        simp only [List.length_cons]
        by_cases h5 : rest.length + 1 + 1 + 1 < 5
        · rw [if_pos h5, if_pos h5]
        · rw [if_neg h5, if_neg h5,
            show (r0 :: r1 :: f :: rest).get? 4 = rest.get? 1 from rfl,
            show (r0 :: r1 :: g :: rest).get? 4 = rest.get? 1 from rfl]
          cases rest.get? 1 with
          | none => rfl
          | some dlen => exact parseDomainWithLen_frag resolve r0 r1 f g dlen rest
      · rw [if_neg h3, if_neg h3]
        by_cases hA4 : atyp = 4
        · rw [if_pos hA4, if_pos hA4]
          rfl
        · rw [if_neg hA4, if_neg hA4]

theorem parse_frag_invariant (resolve : List Nat → Option (List Nat))
    (r0 r1 f g : Nat) (rest : List Nat) :
    parseSOCKS5UDPHeader resolve (r0 :: r1 :: f :: rest) =
      parseSOCKS5UDPHeader resolve (r0 :: r1 :: g :: rest) := by
  unfold parseSOCKS5UDPHeader
  simp only [List.length_cons]
  rw [parseAddrPart_frag resolve r0 r1 f g rest]
  cases hp : parseAddrPart resolve (r0 :: r1 :: g :: rest) with
  | err => rfl
  | crash => rfl
  | ok ip port ds =>
    have hds : 3 ≤ ds := parseAddrPart_ok_ds hp
    by_cases h4 : rest.length + 1 + 1 + 1 < 4
    · rw [if_pos h4, if_pos h4]
    · rw [if_neg h4, if_neg h4]
      show (if ds > rest.length + 1 + 1 + 1 then ParseResult.err
          else ParseResult.ok ip port ((r0 :: r1 :: f :: rest).drop ds)) =
        (if ds > rest.length + 1 + 1 + 1 then ParseResult.err
          else ParseResult.ok ip port ((r0 :: r1 :: g :: rest).drop ds))
      by_cases hgt : ds > rest.length + 1 + 1 + 1
      · rw [if_pos hgt, if_pos hgt]
      · rw [if_neg hgt, if_neg hgt,
          show (r0 :: r1 :: f :: rest).drop ds =
            rest.drop (ds - 3) from drop_cons3 hds,
          show (r0 :: r1 :: g :: rest).drop ds =
            rest.drop (ds - 3) from drop_cons3 hds]

/-- C4 (amended): every datagram shorter than 4 bytes is dropped without
any reply, but the FRAG byte (offset 2) is never inspected: a datagram is
handled exactly like the same datagram with any other FRAG value, so a
nonzero-FRAG datagram is forwarded whenever its zero-FRAG form is. -/
theorem C4_short_dropped_frag_ignored (resolve : List Nat → Option (List Nat))
    (r0 r1 f g : Nat) (rest : List Nat) :
    (∀ data : List Nat, data.length < 4 →
        handleInboundDatagram resolve data = DatagramAction.drop) ∧
    handleInboundDatagram resolve (r0 :: r1 :: f :: rest) =
      handleInboundDatagram resolve (r0 :: r1 :: g :: rest) := by
  constructor
  · intro data hlen
    unfold handleInboundDatagram
    by_cases h0 : data.length = 0
    · rw [if_pos h0]
    · rw [if_neg h0]
      have hp : parseSOCKS5UDPHeader resolve data = ParseResult.err := by
        unfold parseSOCKS5UDPHeader
        rw [if_pos hlen]
      rw [hp]
  · unfold handleInboundDatagram
    simp only [List.length_cons]
    rw [parse_frag_invariant resolve r0 r1 f g rest]

/-- C4 counterexample to the claim as stated: the ATYP-1 datagram with
FRAG byte 1 is parsed successfully and forwarded to 8.8.8.8:53, not
dropped. -/
theorem C4_counterexample :
    handleInboundDatagram (fun _ => none) [0, 0, 1, 1, 8, 8, 8, 8, 0, 53] =
      DatagramAction.forward [8, 8, 8, 8] 53 [] ∧
    DatagramAction.forward [8, 8, 8, 8] 53 [] ≠ DatagramAction.drop := by
  decide

/-- C4 witness: the short datagram [0,0] is dropped, and a FRAG-1
datagram is handled exactly like its FRAG-0 form. -/
theorem C4_short_dropped_frag_ignored_witness :
    handleInboundDatagram (fun _ => none) [0, 0] = DatagramAction.drop ∧
    handleInboundDatagram (fun _ => none) [0, 0, 1, 1, 8, 8, 8, 8, 0, 53] =
      handleInboundDatagram (fun _ => none) [0, 0, 0, 1, 8, 8, 8, 8, 0, 53] :=
  ⟨(C4_short_dropped_frag_ignored (fun _ => none) 0 0 0 0 []).1 [0, 0] (by decide),
   (C4_short_dropped_frag_ignored (fun _ => none) 0 0 1 0 [1, 8, 8, 8, 8, 0, 53]).2⟩

theorem parse_build_atyp1 (resolve : List Nat → Option (List Nat)) (ipb : List Nat)
    (p1 p2 : Nat) (payload : List Nat) (hip : ipb.length = 4) :
    parseSOCKS5UDPHeader resolve (0 :: 0 :: 0 :: 1 :: (ipb ++ p1 :: p2 :: payload)) =
      ParseResult.ok ipb (be16 p1 p2) payload := by
  have hlen : (0 :: 0 :: 0 :: 1 :: (ipb ++ p1 :: p2 :: payload)).length =
      payload.length + 10 := by
    simp [hip]
    omega
  have hslice : sliceBytes (0 :: 0 :: 0 :: 1 :: (ipb ++ p1 :: p2 :: payload)) 4 8 =
      some ipb := by
    rw [sliceBytes_eq_some (by omega) (by omega)]
    congr 1
    show (ipb ++ p1 :: p2 :: payload).take 4 = ipb
    rw [← hip]
    exact List.take_left _ _
  have hg8 : (0 :: 0 :: 0 :: 1 :: (ipb ++ p1 :: p2 :: payload)).get? 8 = some p1 := by
    show (ipb ++ p1 :: p2 :: payload).get? 4 = some p1
    rw [List.get?_append_right (by omega), hip]
    rfl
  have hg9 : (0 :: 0 :: 0 :: 1 :: (ipb ++ p1 :: p2 :: payload)).get? 9 = some p2 := by
    show (ipb ++ p1 :: p2 :: payload).get? 5 = some p2
    rw [List.get?_append_right (by omega), hip]
    rfl
  have hdrop : (0 :: 0 :: 0 :: 1 :: (ipb ++ p1 :: p2 :: payload)).drop 10 = payload := by
    show (ipb ++ p1 :: p2 :: payload).drop 6 = payload
    rw [show (6 : Nat) = ipb.length + 2 from by omega, List.drop_append]
    rfl
  have hp : parseAddrPart resolve (0 :: 0 :: 0 :: 1 :: (ipb ++ p1 :: p2 :: payload)) =
      AddrResult.ok ipb (be16 p1 p2) 10 := by
    rw [parseAddrPart_atyp
      (show (0 :: 0 :: 0 :: 1 :: (ipb ++ p1 :: p2 :: payload)).get? 3 = some 1 from rfl)]
    unfold atypSwitch
    rw [if_pos rfl]
    unfold parseIPv4Part
    rw [if_neg (by omega), hslice, hg8, hg9]
  rw [parse_eq_of_ok (by omega) hp, if_neg (by omega), hdrop]

theorem parse_build_atyp4 (resolve : List Nat → Option (List Nat)) (ipb : List Nat)
    (p1 p2 : Nat) (payload : List Nat) (hip : ipb.length = 16) :
    parseSOCKS5UDPHeader resolve (0 :: 0 :: 0 :: 4 :: (ipb ++ p1 :: p2 :: payload)) =
      ParseResult.ok ipb (be16 p1 p2) payload := by
  have hlen : (0 :: 0 :: 0 :: 4 :: (ipb ++ p1 :: p2 :: payload)).length =
      payload.length + 22 := by
    simp [hip]
    omega
  have hslice : sliceBytes (0 :: 0 :: 0 :: 4 :: (ipb ++ p1 :: p2 :: payload)) 4 20 =
      some ipb := by
    rw [sliceBytes_eq_some (by omega) (by omega)]
    congr 1
    show (ipb ++ p1 :: p2 :: payload).take 16 = ipb
    rw [← hip]
    exact List.take_left _ _
  have hg20 : (0 :: 0 :: 0 :: 4 :: (ipb ++ p1 :: p2 :: payload)).get? 20 = some p1 := by
    show (ipb ++ p1 :: p2 :: payload).get? 16 = some p1
    rw [List.get?_append_right (by omega), hip]
    rfl
  have hg21 : (0 :: 0 :: 0 :: 4 :: (ipb ++ p1 :: p2 :: payload)).get? 21 = some p2 := by
    show (ipb ++ p1 :: p2 :: payload).get? 17 = some p2
    rw [List.get?_append_right (by omega), hip]
    rfl
  have hdrop : (0 :: 0 :: 0 :: 4 :: (ipb ++ p1 :: p2 :: payload)).drop 22 = payload := by
    show (ipb ++ p1 :: p2 :: payload).drop 18 = payload
    rw [show (18 : Nat) = ipb.length + 2 from by omega, List.drop_append]
    rfl
  have hp : parseAddrPart resolve (0 :: 0 :: 0 :: 4 :: (ipb ++ p1 :: p2 :: payload)) =
      AddrResult.ok ipb (be16 p1 p2) 22 := by
    rw [parseAddrPart_atyp
      (show (0 :: 0 :: 0 :: 4 :: (ipb ++ p1 :: p2 :: payload)).get? 3 = some 4 from rfl)]
    unfold atypSwitch
    rw [if_neg (by omega), if_neg (by omega), if_pos rfl]
    unfold parseIPv6Part
    rw [if_neg (by omega), hslice, hg20, hg21]
  rw [parse_eq_of_ok (by omega) hp, if_neg (by omega), hdrop]

/-- The round-trip conclusion of claim C5 at one source address: parsing
the built header yields the same port and payload and an address equal
(in the sense of net.IP.Equal) to the source, exactly equal whenever the
source is in 4-byte form or is a non-mapped 16-byte address; ATYP is
0x01 for IPv4 sources (To4 succeeds) and 0x04 otherwise; the port bytes
are big-endian. -/
def C5Post (resolve : List Nat → Option (List Nat)) (ip : List Nat) (port : Nat)
    (payload : List Nat) : Prop :=
  ∃ ip2,
    parseSOCKS5UDPHeader resolve (buildSOCKS5UDPHeader ip port payload) =
      ParseResult.ok ip2 port payload ∧
    ipEqGo ip2 ip = true ∧
    (ip.length = 4 → ip2 = ip) ∧
    (ipTo4 ip = none → ip2 = ip) ∧
    (buildSOCKS5UDPHeader ip port payload).get? 3 =
      some (if (ipTo4 ip).isSome then 1 else 4) ∧
    u16be port = [port / 256, port % 256]

/-- C5: building a SOCKS5 UDP header from a valid IPv4 or IPv6 source
address and parsing it back round-trips. -/
theorem C5_udp_header_roundtrip (resolve : List Nat → Option (List Nat))
    (ip : List Nat) (port : Nat) (payload : List Nat)
    (hip : ip.length = 4 ∨ ip.length = 16) (hport : port < 65536) :
    C5Post resolve ip port payload := by
  have hu : u16be port = [port / 256, port % 256] := by
    unfold u16be
    rw [Nat.mod_eq_of_lt hport]
  have hne : ip ≠ [] := by
    intro h0
    subst h0
    simp at hip
  have hbe : be16 (port / 256) (port % 256) = port := by
    unfold be16
    omega
  rcases hip with h4 | h16
  · have hTo4 : ipTo4 ip = some ip := by
      unfold ipTo4
      rw [if_pos h4]
    have hb : buildSOCKS5UDPHeader ip port payload =
        0 :: 0 :: 0 :: 1 :: (ip ++ port / 256 :: port % 256 :: payload) := by
      unfold buildSOCKS5UDPHeader
      rw [if_pos hne, hTo4, hu]
      simp
    refine ⟨ip, ?_, ?_, fun _ => rfl, ?_, ?_, hu⟩
    · rw [hb, parse_build_atyp1 resolve ip _ _ payload h4, hbe]
    · unfold ipEqGo
      rw [if_pos rfl]
      simp
    · intro h0
      simp [hTo4] at h0
    · rw [hb, hTo4]
      rfl
  · have hTo4if : ipTo4 ip =
        (if ip.length = 16 ∧ ip.take 10 = [0, 0, 0, 0, 0, 0, 0, 0, 0, 0] ∧
            ip.get? 10 = some 255 ∧ ip.get? 11 = some 255 then
          some (ip.drop 12)
        else none) := by
      unfold ipTo4
      rw [if_neg (by omega)]
    by_cases hm : ip.length = 16 ∧ ip.take 10 = [0, 0, 0, 0, 0, 0, 0, 0, 0, 0] ∧
        ip.get? 10 = some 255 ∧ ip.get? 11 = some 255
    · have hTo4 : ipTo4 ip = some (ip.drop 12) := by
        rw [hTo4if, if_pos hm]
      have hd4 : (ip.drop 12).length = 4 := by
        rw [List.length_drop]
        omega
      have hb : buildSOCKS5UDPHeader ip port payload =
          0 :: 0 :: 0 :: 1 :: (ip.drop 12 ++ port / 256 :: port % 256 :: payload) := by
        unfold buildSOCKS5UDPHeader
        rw [if_pos hne, hTo4, hu]
        simp
      have htake12 : ip.take 12 = [0, 0, 0, 0, 0, 0, 0, 0, 0, 0, 255, 255] := by
        obtain ⟨-, hz, h10, h11⟩ := hm
        rw [List.get?_eq_getElem?] at h10 h11
        rw [show (12 : Nat) = 11 + 1 from rfl, List.take_succ,
          show (11 : Nat) = 10 + 1 from rfl, List.take_succ, hz, h10, h11]
        rfl
      refine ⟨ip.drop 12, ?_, ?_, ?_, ?_, ?_, hu⟩
      · rw [hb, parse_build_atyp1 resolve _ _ _ payload hd4, hbe]
      · unfold ipEqGo
        rw [if_neg (by omega), if_pos ⟨hd4, h16⟩]
        rw [htake12]
        simp
      · intro h0
        omega
      · intro h0
        simp [hTo4] at h0
      · rw [hb, hTo4]
        rfl
    · have hTo4 : ipTo4 ip = none := by
        rw [hTo4if, if_neg hm]
      have hTo16 : ipTo16 ip = some ip := by
        unfold ipTo16
        rw [if_neg (by omega), if_pos h16]
      have hb : buildSOCKS5UDPHeader ip port payload =
          0 :: 0 :: 0 :: 4 :: (ip ++ port / 256 :: port % 256 :: payload) := by
        unfold buildSOCKS5UDPHeader
        rw [if_pos hne, hTo4, hTo16, hu]
        simp
      refine ⟨ip, ?_, ?_, ?_, fun _ => rfl, ?_, hu⟩
      · rw [hb, parse_build_atyp4 resolve ip _ _ payload h16, hbe]
      · unfold ipEqGo
        rw [if_pos rfl]
        simp
      · intro h0
        omega
      · rw [hb, hTo4]
        rfl

/-- C5 witness: the round trip applied at the IPv4 source 1.2.3.4:53
with payload [9, 9]. -/
theorem C5_udp_header_roundtrip_witness :
    C5Post (fun _ => none) [1, 2, 3, 4] 53 [9, 9] :=
  C5_udp_header_roundtrip (fun _ => none) [1, 2, 3, 4] 53 [9, 9]
    (Or.inl rfl) (by decide)

/-! ## Client proxy path (Client.proxyTCP) -/

/-- The 10-byte host-unreachable SOCKS5 reply (0x05 0x04). -/
def hostUnreachReply : List Nat := [5, 4, 0, 1, 0, 0, 0, 0, 0, 0]

/-- The 10-byte success SOCKS5 reply (0x05 0x00). -/
def successReply : List Nat := [5, 0, 0, 1, 0, 0, 0, 0, 0, 0]

/-- Client.proxyTCP after the stream is open, as a function of the bytes
the server sends back on the stream: write token and newline, read the
auth status byte (read failure or a nonzero byte closes silently), write
the address length and address, read the dial status byte (read failure
or a nonzero byte sends the host-unreachable reply), else send the
success reply.  Returns the bytes written to the stream and the reply
bytes written to the SOCKS5 client socket. -/
def proxyTCP (token target : List Nat) (streamIn : List Nat) :
    List Nat × List Nat :=
  match streamIn with
  | [] => (token ++ [10], [])
  | s1 :: rest =>
    if s1 ≠ 0 then (token ++ [10], [])
    else
      match rest with
      | [] => (token ++ [10] ++ [target.length % 256] ++ target, hostUnreachReply)
      | s2 :: _ =>
        if s2 ≠ 0 then
          (token ++ [10] ++ [target.length % 256] ++ target, hostUnreachReply)
        else (token ++ [10] ++ [target.length % 256] ++ target, successReply)

theorem proxyTCP_snd_nil (token target : List Nat) :
    (proxyTCP token target []).2 = [] := rfl

theorem proxyTCP_snd_bad1 (token target : List Nat) (s1 : Nat) (rest : List Nat)
    (h : s1 ≠ 0) : (proxyTCP token target (s1 :: rest)).2 = [] := by
  simp [proxyTCP, h]

theorem proxyTCP_snd_one (token target : List Nat) :
    (proxyTCP token target [0]).2 = hostUnreachReply := by
  simp [proxyTCP]

theorem proxyTCP_snd_bad2 (token target : List Nat) (s2 : Nat) (rest : List Nat)
    (h : s2 ≠ 0) : (proxyTCP token target (0 :: s2 :: rest)).2 = hostUnreachReply := by
  simp [proxyTCP, h]

theorem proxyTCP_snd_okk (token target : List Nat) (rest : List Nat) :
    (proxyTCP token target (0 :: 0 :: rest)).2 = successReply := by
  simp [proxyTCP]

/-- C6: on the proxied path the SOCKS5 client receives no reply when the
auth status byte is missing or nonzero, the host-unreachable reply when
the dial status byte is missing or nonzero, and the success reply
exactly when both status bytes are 0x00. -/
theorem C6_proxy_status_replies (token target streamIn : List Nat) :
    ((streamIn.head? ≠ some 0 → (proxyTCP token target streamIn).2 = []) ∧
     (∀ s2 rest, streamIn = 0 :: s2 :: rest → s2 ≠ 0 →
        (proxyTCP token target streamIn).2 = hostUnreachReply) ∧
     (streamIn = [0] → (proxyTCP token target streamIn).2 = hostUnreachReply) ∧
     ((proxyTCP token target streamIn).2 = successReply ↔
        ∃ rest, streamIn = 0 :: 0 :: rest)) := by
  refine ⟨?_, ?_, ?_, ?_⟩
  · intro hh
    rcases streamIn with - | ⟨s1, rest⟩
    · rfl
    · have h1 : s1 ≠ 0 := fun h0 => hh (by rw [h0]; rfl)
      exact proxyTCP_snd_bad1 token target s1 rest h1
  · rintro s2 rest rfl h2
    exact proxyTCP_snd_bad2 token target s2 rest h2
  · rintro rfl
    exact proxyTCP_snd_one token target
  · constructor
    · intro h
      rcases streamIn with - | ⟨s1, - | ⟨s2, rest⟩⟩
      · rw [proxyTCP_snd_nil] at h
        exact absurd h (by decide)
      · by_cases h1 : s1 = 0
        · subst h1
          rw [proxyTCP_snd_one] at h
          exact absurd h (by decide)
        · rw [proxyTCP_snd_bad1 token target s1 [] h1] at h
          exact absurd h (by decide)
      · by_cases h1 : s1 = 0
        · subst h1
          by_cases h2 : s2 = 0
          · subst h2
            exact ⟨rest, rfl⟩
          · rw [proxyTCP_snd_bad2 token target s2 rest h2] at h
            exact absurd h (by decide)
        · rw [proxyTCP_snd_bad1 token target s1 (s2 :: rest) h1] at h
          exact absurd h (by decide)
    · rintro ⟨rest, rfl⟩
      exact proxyTCP_snd_okk token target rest

/-- C6 witness: both status bytes 0x00 produce the success reply. -/
theorem C6_proxy_status_replies_witness :
    (proxyTCP [116] [104] [0, 0]).2 = successReply :=
  (C6_proxy_status_replies [116] [104] [0, 0]).2.2.2.mpr ⟨[], rfl⟩

/-! ## Routing decision (Client.handleTCPConnect) -/

/-- The routing decision of Client.handleTCPConnect: global mode proxies
unless the host is a localhost literal; any other mode consults the
router when one is present, otherwise goes direct. -/
def routeDecision (mode : List Char) (rt : Option TrieNode) (host : List Char) :
    Bool :=
  if mode = "global".data then
    if host ≠ "localhost".data ∧ host ≠ "127.0.0.1".data ∧ host ≠ "::1".data
    then true else false
  else
    match rt with
    | some r => shouldProxy r host
    | none => false

/-- C7: in global mode the connection is proxied exactly when the host is
none of localhost, 127.0.0.1, ::1; in smart mode (router present, as
Start always sets it) it is proxied exactly when ShouldProxy says so. -/
theorem C7_route_modes (rt : TrieNode) (host : List Char) :
    ((routeDecision "global".data (some rt) host = true ↔
        host ≠ "localhost".data ∧ host ≠ "127.0.0.1".data ∧ host ≠ "::1".data) ∧
      routeDecision "smart".data (some rt) host = shouldProxy rt host) := by
  constructor
  · rw [show routeDecision "global".data (some rt) host =
        (if host ≠ "localhost".data ∧ host ≠ "127.0.0.1".data ∧ host ≠ "::1".data
         then true else false) from by
      unfold routeDecision
      rw [if_pos rfl]]
    by_cases hc : host ≠ "localhost".data ∧ host ≠ "127.0.0.1".data ∧
        host ≠ "::1".data
    · simp [hc]
    · simp [hc]
  · unfold routeDecision
    rw [if_neg (by decide)]

/-! ## Anti-probe responder (handleInvalidToken) -/

/-- The four canned HTTP error responses of handleInvalidToken. -/
def htmlResponses : List (List Char) :=
  [("HTTP/1.1 400 Bad Request\r\nContent-Type: text/html\r\n\r\n" ++
      "<html><body><h1>400 Bad Request</h1></body></html>").data,
   ("HTTP/1.1 404 Not Found\r\nContent-Type: text/html\r\n\r\n" ++
      "<html><body><h1>404 Not Found</h1></body></html>").data,
   ("HTTP/1.1 500 Internal Server Error\r\nContent-Type: text/html\r\n\r\n" ++
      "<html><body><h1>500 Internal Server Error</h1></body></html>").data,
   ("HTTP/1.1 503 Service Unavailable\r\nContent-Type: text/html\r\n\r\n" ++
      "<html><body><h1>503 Service Unavailable</h1></body></html>").data]

/-- One observable event of the anti-probe responder. -/
inductive ProbeEvent : Type
  | sleepSec : Nat → ProbeEvent
  | writeBytes : List Char → ProbeEvent
  | sleepMs : Nat → ProbeEvent
  deriving DecidableEq

/-- handleInvalidToken with the two rand.Intn draws made explicit
(r1 for rand.Intn(3), r2 for rand.Intn(len(htmlResponses))): sleep
2 + r1 seconds, write the r2-th canned response, pause 100 ms; the
stream closes when the caller returns. -/
def handleInvalidToken (r1 r2 : Nat) : List ProbeEvent :=
  [ProbeEvent.sleepSec (2 + r1),
   ProbeEvent.writeBytes ((htmlResponses.get? r2).getD []),
   ProbeEvent.sleepMs 100]

/-- The conclusion of claim C8 for one pair of random draws: the trace is
sleep, one HTTP write, a 100 ms pause; the delay is in [2, 5); the
response written is one of the four distinct canned HTTP/1.1 responses
with statuses 400, 404, 500, 503 and an HTML body; the write starts with
the letter H, never a protocol status byte. -/
def C8Post (r1 r2 : Nat) : Prop :=
  handleInvalidToken r1 r2 =
    [ProbeEvent.sleepSec (2 + r1),
     ProbeEvent.writeBytes ((htmlResponses.get? r2).getD []),
     ProbeEvent.sleepMs 100] ∧
  2 ≤ 2 + r1 ∧ 2 + r1 < 5 ∧
  (htmlResponses.get? r2).getD [] ∈ htmlResponses ∧
  htmlResponses.length = 4 ∧
  htmlResponses.Nodup ∧
  ("HTTP/1.1 ".data <+: (htmlResponses.get? r2).getD []) ∧
  ("<html>".data <:+: (htmlResponses.get? r2).getD []) ∧
  ((htmlResponses.get? r2).getD []).head? = some 'H' ∧
  (" 400 ".data <:+: (htmlResponses.get? 0).getD []) ∧
  (" 404 ".data <:+: (htmlResponses.get? 1).getD []) ∧
  (" 500 ".data <:+: (htmlResponses.get? 2).getD []) ∧
  (" 503 ".data <:+: (htmlResponses.get? 3).getD [])

/-- C8: the anti-probe responder sleeps a jittered 2 to 4 whole seconds,
writes one of the four canned HTTP error responses selected by the
random index, pauses about 100 ms before the stream closes, and never
writes a protocol status byte. -/
theorem C8_antiprobe_behavior (r1 r2 : Nat) (h1 : r1 < 3) (h2 : r2 < 4) :
    C8Post r1 r2 := by
  unfold C8Post
  interval_cases r2 <;>
    exact ⟨rfl, by omega, by omega, by decide, by decide, by decide, by decide,
      by decide, by decide, by decide, by decide, by decide, by decide⟩

/-- C8 witness: the conclusion at the draws r1 = 0, r2 = 0. -/
theorem C8_antiprobe_behavior_witness : C8Post 0 0 :=
  C8_antiprobe_behavior 0 0 (by decide) (by decide)

/-! ## Tunnel supervisor tick (Client.monitorConnection) -/

/-- The held QUIC connection as seen by the supervisor: ctxErr is
whether conn.Context() reports an error. -/
structure ConnState where
  ctxErr : Bool
  deriving DecidableEq

/-- The reconnect condition: connection absent or its context finished
(quicConn == nil or quicConn.Context().Err() != nil). -/
def connNeedsReconnect : Option ConnState → Bool
  | none => true
  | some c => c.ctxErr

/-- Observable events of one 5-second tick of monitorConnection. -/
inductive TickEvent : Type
  | readLockCheck : Bool → TickEvent
  | lockAcquire : TickEvent
  | doubleCheck : Bool → TickEvent
  | dialAttempt : TickEvent
  | lockRelease : TickEvent
  deriving DecidableEq

/-- One tick of monitorConnection: check under the read lock; when
reconnect is needed take the exclusive lock, re-check (the state is
unchanged within this sequential model of a single tick), and dial. -/
def monitorTick (conn : Option ConnState) : List TickEvent :=
  if connNeedsReconnect conn then
    [TickEvent.readLockCheck true, TickEvent.lockAcquire] ++
      (if connNeedsReconnect conn then
        [TickEvent.doubleCheck true, TickEvent.dialAttempt]
      else [TickEvent.doubleCheck false]) ++
    [TickEvent.lockRelease]
  else [TickEvent.readLockCheck false]

/-- Number of dial attempts in a tick trace. -/
def dialCount (evs : List TickEvent) : Nat := evs.count TickEvent.dialAttempt

/-- C9: a tick with a healthy connection performs no dial and releases
no lock; a tick with an absent or errored connection performs exactly
one dial, after the double-check, between taking and releasing the
exclusive lock. -/
theorem C9_tick_dial_discipline (conn : Option ConnState) :
    ((∀ c, conn = some c → c.ctxErr = false →
        monitorTick conn = [TickEvent.readLockCheck false] ∧
        dialCount (monitorTick conn) = 0) ∧
     (connNeedsReconnect conn = true →
        monitorTick conn = [TickEvent.readLockCheck true, TickEvent.lockAcquire,
          TickEvent.doubleCheck true, TickEvent.dialAttempt,
          TickEvent.lockRelease] ∧
        dialCount (monitorTick conn) = 1)) := by
  constructor
  · rintro c rfl herr
    have hn : connNeedsReconnect (some c) = false := herr
    constructor
    · unfold monitorTick
      rw [hn]
      rfl
    · unfold dialCount monitorTick
      rw [hn]
      decide
  · intro hn
    constructor
    · unfold monitorTick
      rw [hn]
      rfl
    · unfold dialCount monitorTick
      rw [hn]
      decide

/-- C9 witness: the healthy tick at a live connection does not dial; the
tick with no connection dials once under the lock. -/
theorem C9_tick_dial_discipline_witness :
    (monitorTick (some ⟨false⟩) = [TickEvent.readLockCheck false] ∧
      dialCount (monitorTick (some ⟨false⟩)) = 0) ∧
    (monitorTick none = [TickEvent.readLockCheck true, TickEvent.lockAcquire,
        TickEvent.doubleCheck true, TickEvent.dialAttempt,
        TickEvent.lockRelease] ∧
      dialCount (monitorTick none) = 1) :=
  ⟨(C9_tick_dial_discipline (some ⟨false⟩)).1 ⟨false⟩ rfl rfl,
   (C9_tick_dial_discipline none).2 rfl⟩

end UapQuic
